import Mathlib

/-!
Verification of the lz_fnv library (src/lib.rs): the FNV-0, FNV-1 and
FNV-1a hash accumulators over the 32-, 64- and 128-bit widths.

The embedding models the hash state as a natural number together with a
width; all arithmetic wraps modulo 2 ^ width, matching the wrapping
semantics of the Rust unsigned integer types u32, u64 and u128.
Input bytes are elements of Fin 256, matching u8.
-/

/-- The three hash widths instantiated by the fnv_impl! invocations
(lib.rs lines 235-242): u32, u64 and u128. -/
inductive Width
  | w32
  | w64
  | w128
deriving DecidableEq, Repr

/-- Bit width of the underlying unsigned integer type. -/
def Width.bits : Width → Nat
  | .w32 => 32
  | .w64 => 64
  | .w128 => 128

/-- The FNV prime for each width, from the fnv_impl! invocations
(lib.rs lines 235, 236, 239, 242). -/
def Width.prime : Width → Nat
  | .w32 => 0x1000193
  | .w64 => 0x100000001B3
  | .w128 => 0x0000000001000000000000000000013B

/-- The FNV offset basis for each width, from the fnv_impl! invocations
(lib.rs lines 235, 236, 239, 242). -/
def Width.offset : Width → Nat
  | .w32 => 0x811c9dc5
  | .w64 => 0xcbf29ce484222325
  | .w128 => 0x6C62272E07BB014262B821756295C58D

/-- `hash.wrapping_mul(prime)` on a uN value: multiply modulo 2 ^ bits. -/
def wrappingMul (w : Width) (a b : Nat) : Nat :=
  a * b % 2 ^ w.bits

/-- The `$from_byte` closures `|byte| byte as uN` (lib.rs lines 235-242):
a u8 widened to the accumulator width. -/
def fromByte (b : Fin 256) : Nat :=
  b.val

/-- The loop body of `FnvHasher::write` for `Fnv0<T>` (fnv0_impl!, lib.rs
lines 113-122): for each byte, `hash = hash.wrapping_mul(prime)` then
`hash ^= from_byte(byte)`. -/
def fnv0WriteLoop (w : Width) (hash : Nat) : List (Fin 256) → Nat
  | [] => hash
  | b :: rest => fnv0WriteLoop w (wrappingMul w hash w.prime ^^^ fromByte b) rest

/-- The loop body of `FnvHasher::write` for `Fnv1<T>` (fnv1_impl!, lib.rs
lines 151-160): for each byte, `hash = hash.wrapping_mul(prime)` then
`hash ^= from_byte(byte)`. -/
def fnv1WriteLoop (w : Width) (hash : Nat) : List (Fin 256) → Nat
  | [] => hash
  | b :: rest => fnv1WriteLoop w (wrappingMul w hash w.prime ^^^ fromByte b) rest

/-- The loop body of `FnvHasher::write` for `Fnv1a<T>` (fnv1a_impl!, lib.rs
lines 189-198): for each byte, `hash ^= from_byte(byte)` then
`hash = hash.wrapping_mul(prime)`. -/
def fnv1aWriteLoop (w : Width) (hash : Nat) : List (Fin 256) → Nat
  | [] => hash
  | b :: rest => fnv1aWriteLoop w (wrappingMul w (hash ^^^ fromByte b) w.prime) rest

/-- The state of `Fnv0<T>` (lib.rs lines 29-32): a single `hash` field. -/
structure Fnv0 where
  hash : Nat
deriving DecidableEq, Repr

/-- The state of `Fnv1<T>` (lib.rs lines 35-38): a single `hash` field. -/
structure Fnv1 where
  hash : Nat
deriving DecidableEq, Repr

/-- The state of `Fnv1a<T>` (lib.rs lines 41-44): a single `hash` field. -/
structure Fnv1a where
  hash : Nat
deriving DecidableEq, Repr

/-- `Fnv0::with_key(key)` (lib.rs lines 67-71). -/
def Fnv0.withKey (key : Nat) : Fnv0 :=
  ⟨key⟩

/-- `Fnv0::new()` (lib.rs lines 54-56): `Self::default()`, where the
derived `Default` (lib.rs line 29) sets `hash` to `T::default()`, which is
zero for every unsigned integer type. -/
def Fnv0.new : Fnv0 :=
  ⟨0⟩

/-- `FnvHasher::finish` for `Fnv0<T>` (lib.rs lines 109-111). -/
def Fnv0.finish (s : Fnv0) : Nat :=
  s.hash

/-- `FnvHasher::write` for `Fnv0<T>` (lib.rs lines 113-122). -/
def Fnv0.write (w : Width) (s : Fnv0) (bytes : List (Fin 256)) : Fnv0 :=
  ⟨fnv0WriteLoop w s.hash bytes⟩

/-- `Fnv1::with_key(key)` (lib.rs lines 82-86). -/
def Fnv1.withKey (key : Nat) : Fnv1 :=
  ⟨key⟩

/-- `Fnv1::new()` = `Self::default()` (fnv1_impl!, lib.rs lines 129-142):
`hash` is set to the offset constant of the width. -/
def Fnv1.new (w : Width) : Fnv1 :=
  ⟨w.offset⟩

/-- `FnvHasher::finish` for `Fnv1<T>` (lib.rs lines 147-149). -/
def Fnv1.finish (s : Fnv1) : Nat :=
  s.hash

/-- `FnvHasher::write` for `Fnv1<T>` (lib.rs lines 151-160). -/
def Fnv1.write (w : Width) (s : Fnv1) (bytes : List (Fin 256)) : Fnv1 :=
  ⟨fnv1WriteLoop w s.hash bytes⟩

/-- `Fnv1a::with_key(key)` (lib.rs lines 97-101). -/
def Fnv1a.withKey (key : Nat) : Fnv1a :=
  ⟨key⟩

/-- `Fnv1a::new()` = `Self::default()` (fnv1a_impl!, lib.rs lines 167-180):
`hash` is set to the offset constant of the width. -/
def Fnv1a.new (w : Width) : Fnv1a :=
  ⟨w.offset⟩

/-- `FnvHasher::finish` for `Fnv1a<T>` (lib.rs lines 185-187). -/
def Fnv1a.finish (s : Fnv1a) : Nat :=
  s.hash

/-- `FnvHasher::write` for `Fnv1a<T>` (lib.rs lines 189-198). -/
def Fnv1a.write (w : Width) (s : Fnv1a) (bytes : List (Fin 256)) : Fnv1a :=
  ⟨fnv1aWriteLoop w s.hash bytes⟩

/-- The three FNV variants implemented by the library. -/
inductive Variant
  | fnv0
  | fnv1
  | fnv1a
deriving DecidableEq, Repr

/-- Variant dispatch over the three write loops. -/
def writeLoop (v : Variant) (w : Width) (hash : Nat) (bytes : List (Fin 256)) : Nat :=
  match v with
  | .fnv0 => fnv0WriteLoop w hash bytes
  | .fnv1 => fnv1WriteLoop w hash bytes
  | .fnv1a => fnv1aWriteLoop w hash bytes

/-- The hash value produced by the zero-argument constructor of each
variant: `Fnv0::new()` yields zero via the derived `Default` (lib.rs lines
29, 54-56); `Fnv1::new()` and `Fnv1a::new()` yield the offset constant
(lib.rs lines 129-142, 167-180). -/
def newHash (v : Variant) (w : Width) : Nat :=
  match v with
  | .fnv0 => 0
  | .fnv1 => w.offset
  | .fnv1a => w.offset

/-- Which variants expose a zero-argument constructor in the source: all
three do. `Fnv0` derives `Default` (lib.rs line 29) and defines `new()`
(lib.rs lines 54-56); `Fnv1` and `Fnv1a` receive `Default` and `new()`
from fnv1_impl! and fnv1a_impl!. -/
def hasZeroArgCtor : Variant → Bool :=
  fun _ => true

/-- Which (variant, width) pairs receive a `std::hash::Hasher` impl: the
u64 arm of fnv_impl! (lib.rs lines 218-227) invokes fnv_hasher_impl! for
all three variants; the generic arm (lines 228-232) does not. -/
def hasStdHasher (_ : Variant) (w : Width) : Bool :=
  match w with
  | .w64 => true
  | _ => false

/-- `std::hash::Hasher::finish` for `Fnv0<u64>` (fnv_hasher_impl!, lib.rs
lines 206-209): calls `::FnvHasher::finish(self)`. -/
def Fnv0.stdFinish (s : Fnv0) : Nat :=
  s.finish

/-- `std::hash::Hasher::write` for `Fnv0<u64>` (fnv_hasher_impl!, lib.rs
lines 211-213): calls `::FnvHasher::write(self, bytes)`. -/
def Fnv0.stdWrite (s : Fnv0) (bytes : List (Fin 256)) : Fnv0 :=
  s.write Width.w64 bytes

/-- `std::hash::Hasher::finish` for `Fnv1<u64>` (fnv_hasher_impl!). -/
def Fnv1.stdFinish (s : Fnv1) : Nat :=
  s.finish

/-- `std::hash::Hasher::write` for `Fnv1<u64>` (fnv_hasher_impl!). -/
def Fnv1.stdWrite (s : Fnv1) (bytes : List (Fin 256)) : Fnv1 :=
  s.write Width.w64 bytes

/-- `std::hash::Hasher::finish` for `Fnv1a<u64>` (fnv_hasher_impl!). -/
def Fnv1a.stdFinish (s : Fnv1a) : Nat :=
  s.finish

/-- `std::hash::Hasher::write` for `Fnv1a<u64>` (fnv_hasher_impl!). -/
def Fnv1a.stdWrite (s : Fnv1a) (bytes : List (Fin 256)) : Fnv1a :=
  s.write Width.w64 bytes

/-- The FNV-1a per-byte update rule as the spec states it: `value = value
XOR b_w`; then `value = (value * PRIME) mod 2^width`. -/
def specFnv1aStep (w : Width) (value : Nat) (b : Fin 256) : Nat :=
  (value ^^^ b.val) * w.prime % 2 ^ w.bits

/-- The bytes of the test input "chongo <Landon Curt Noll> /\\../\\"
(lib.rs lines 255, 266), as u8 values. -/
def chongoBytes : List (Fin 256) :=
  [99, 104, 111, 110, 103, 111, 32, 60, 76, 97, 110, 100, 111, 110, 32,
   67, 117, 114, 116, 32, 78, 111, 108, 108, 62, 32, 47, 92, 46, 46, 47, 92]

/-- The bytes of the test input "foobar" (lib.rs line 287). -/
def foobarBytes : List (Fin 256) :=
  [102, 111, 111, 98, 97, 114]

-- Helper lemmas shared by the claim theorems.

theorem fnv0WriteLoop_append (w : Width) (s1 s2 : List (Fin 256)) (k : Nat) :
    fnv0WriteLoop w (fnv0WriteLoop w k s1) s2 = fnv0WriteLoop w k (s1 ++ s2) := by
  induction s1 generalizing k with
  | nil => rfl
  | cons b rest ih => simpa [fnv0WriteLoop] using ih _

theorem fnv1WriteLoop_append (w : Width) (s1 s2 : List (Fin 256)) (k : Nat) :
    fnv1WriteLoop w (fnv1WriteLoop w k s1) s2 = fnv1WriteLoop w k (s1 ++ s2) := by
  induction s1 generalizing k with
  | nil => rfl
  | cons b rest ih => simpa [fnv1WriteLoop] using ih _

theorem fnv1aWriteLoop_append (w : Width) (s1 s2 : List (Fin 256)) (k : Nat) :
    fnv1aWriteLoop w (fnv1aWriteLoop w k s1) s2 = fnv1aWriteLoop w k (s1 ++ s2) := by
  induction s1 generalizing k with
  | nil => rfl
  | cons b rest ih => simpa [fnv1aWriteLoop] using ih _

theorem fnv1aWriteLoop_eq_foldl (w : Width) (bytes : List (Fin 256)) (k : Nat) :
    fnv1aWriteLoop w k bytes = bytes.foldl (specFnv1aStep w) k := by
  induction bytes generalizing k with
  | nil => rfl
  | cons b rest ih =>
      simpa [fnv1aWriteLoop, specFnv1aStep, wrappingMul, fromByte] using ih _

theorem fnv0WriteLoop_eq_fnv1WriteLoop (w : Width) (bytes : List (Fin 256)) (k : Nat) :
    fnv0WriteLoop w k bytes = fnv1WriteLoop w k bytes := by
  induction bytes generalizing k with
  | nil => rfl
  | cons b rest ih => simpa [fnv0WriteLoop, fnv1WriteLoop] using ih _

-- Claim theorems.

/-- C1: the FNV-1a accumulator absorbs one byte by XORing the widened byte
into the value and then multiplying by the width prime modulo 2 ^ width,
and for every byte sequence the digest equals the left fold of this
per-byte rule over the bytes in order, starting from the initial state
(either the default offset basis or an explicit key). -/
theorem fnv1a_write_is_foldl_of_spec_step (w : Width) (k : Nat) (bytes : List (Fin 256)) :
    (∀ (h : Nat) (b : Fin 256), fnv1aWriteLoop w h [b] = specFnv1aStep w h b) ∧
    ((Fnv1a.new w).write w bytes).finish = bytes.foldl (specFnv1aStep w) w.offset ∧
    ((Fnv1a.withKey k).write w bytes).finish = bytes.foldl (specFnv1aStep w) k := by
  refine ⟨fun h b => rfl, ?_, ?_⟩
  · exact fnv1aWriteLoop_eq_foldl w bytes w.offset
  · exact fnv1aWriteLoop_eq_foldl w bytes k

/-- C2: the prime and offset-basis constants of each width are bit-for-bit
the published FNV values, and the zero-argument constructors of FNV-1 and
FNV-1a initialize the value to exactly the offset basis of their width. -/
theorem fnv_constants_match_published (w : Width) :
    Width.prime .w32 = 0x01000193 ∧ Width.offset .w32 = 0x811c9dc5 ∧
    Width.prime .w64 = 0x100000001B3 ∧ Width.offset .w64 = 0xcbf29ce484222325 ∧
    Width.prime .w128 = 0x0000000001000000000000000000013B ∧
    Width.offset .w128 = 0x6C62272E07BB014262B821756295C58D ∧
    (Fnv1.new w).finish = w.offset ∧ (Fnv1a.new w).finish = w.offset :=
  ⟨rfl, rfl, rfl, rfl, rfl, rfl, rfl, rfl⟩

/-- C3: streaming equivalence: for every variant, width and seed, writing
s1 and then s2 yields the same hash value as writing s1 ++ s2 in one call
from the same seed, including when either sequence is empty. -/
theorem write_streaming_equivalence (v : Variant) (w : Width) (k : Nat)
    (s1 s2 : List (Fin 256)) :
    writeLoop v w (writeLoop v w k s1) s2 = writeLoop v w k (s1 ++ s2) := by
  cases v with
  | fnv0 => exact fnv0WriteLoop_append w s1 s2 k
  | fnv1 => exact fnv1WriteLoop_append w s1 s2 k
  | fnv1a => exact fnv1aWriteLoop_append w s1 s2 k

/-- C4: known-answer values: the default 32-bit FNV-0 accumulator digests
the chongo test string to 0x811c9dc5, the 64-bit FNV-0 accumulator digests
the same input to 0xcbf29ce484222325, and the default 128-bit FNV-1a
accumulator digests "foobar" to 0x343e1662793c64bf6f0d3597ba446f18. -/
theorem known_answer_values :
    (Fnv0.new.write Width.w32 chongoBytes).finish = 0x811c9dc5 ∧
    (Fnv0.new.write Width.w64 chongoBytes).finish = 0xcbf29ce484222325 ∧
    ((Fnv1a.new Width.w128).write Width.w128 foobarBytes).finish =
      0x343e1662793c64bf6f0d3597ba446f18 := by
  refine ⟨?_, ?_, ?_⟩ <;> decide

/-- C5: FNV-0 and FNV-1 apply the identical per-byte update rule, so for
every width, seed and byte sequence, an FNV-0 accumulator and an FNV-1
accumulator seeded with the same key produce equal digests. -/
theorem fnv0_fnv1_same_digest (w : Width) (k : Nat) (s : List (Fin 256)) :
    ((Fnv0.withKey k).write w s).finish = ((Fnv1.withKey k).write w s).finish :=
  fnv0WriteLoop_eq_fnv1WriteLoop w s k

/-- C6: writing the empty byte sequence mutates nothing: for every variant,
width and current hash value the value is unchanged, so the digest of a
fresh accumulator after an empty write is still the offset basis (FNV-1,
FNV-1a) or the seed (FNV-0, zero for its default constructor). -/
theorem write_empty_no_mutation (v : Variant) (w : Width) (h : Nat) :
    writeLoop v w h [] = h ∧
    ((Fnv1.new w).write w []).finish = w.offset ∧
    ((Fnv1a.new w).write w []).finish = w.offset ∧
    (∀ k : Nat, ((Fnv0.withKey k).write w []).finish = k) ∧
    (Fnv0.new.write w []).finish = 0 := by
  cases v with
  | fnv0 => exact ⟨rfl, rfl, rfl, fun k => rfl, rfl⟩
  | fnv1 => exact ⟨rfl, rfl, rfl, fun k => rfl, rfl⟩
  | fnv1a => exact ⟨rfl, rfl, rfl, fun k => rfl, rfl⟩

/-- C8: order sensitivity: for each variant and width there is a byte
sequence and a permutation of it, unequal as sequences, whose digests from
the default initial state differ. -/
theorem write_order_sensitive (v : Variant) (w : Width) :
    ∃ s t : List (Fin 256), s.Perm t ∧ s ≠ t ∧
      writeLoop v w (newHash v w) s ≠ writeLoop v w (newHash v w) t := by
  refine ⟨[0, 1], [1, 0], List.Perm.swap 1 0 [], ?_, ?_⟩
  · decide
  · cases v <;> cases w <;> decide

/-- C9: determinism: the digest is a function only of the seed and the
absorbed byte sequence, so two identically seeded accumulators absorbing
equal byte sequences produce identical digests. -/
theorem write_deterministic (v : Variant) (w : Width) (k1 k2 : Nat)
    (s1 s2 : List (Fin 256)) (hk : k1 = k2) (hs : s1 = s2) :
    writeLoop v w k1 s1 = writeLoop v w k2 s2 := by
  rw [hk, hs]

/-- Witness for C9 at concrete inputs. -/
theorem write_deterministic_witness :
    writeLoop Variant.fnv1a Width.w32 7 [3, 5] = writeLoop Variant.fnv1a Width.w32 7 [3, 5] :=
  write_deterministic Variant.fnv1a Width.w32 7 7 [3, 5] [3, 5] rfl rfl

/-- C10: the std::hash::Hasher adapter delegates exactly to the core: for
each of the three u64 accumulators its write produces the same state change
as FnvHasher::write and its finish returns the same value as
FnvHasher::finish, in every state, and the adapter is generated only for
the 64-bit width. -/
theorem std_hasher_delegates (a : Fnv0) (b : Fnv1) (c : Fnv1a)
    (bytes : List (Fin 256)) :
    a.stdWrite bytes = a.write Width.w64 bytes ∧ a.stdFinish = a.finish ∧
    b.stdWrite bytes = b.write Width.w64 bytes ∧ b.stdFinish = b.finish ∧
    c.stdWrite bytes = c.write Width.w64 bytes ∧ c.stdFinish = c.finish ∧
    (∀ (v : Variant) (w : Width), hasStdHasher v w = true ↔ w = Width.w64) := by
  refine ⟨rfl, rfl, rfl, rfl, rfl, rfl, ?_⟩
  intro v w
  cases w <;> simp [hasStdHasher]

/-- C7 counterexample: the source does expose a zero-argument constructor
for FNV-0 (`Fnv0::new()` via the derived `Default`), and it initializes the
value to zero. -/
theorem fnv0_zero_arg_ctor_exists :
    hasZeroArgCtor Variant.fnv0 = true ∧ Fnv0.new.finish = 0 :=
  ⟨rfl, rfl⟩

/-- C7 amended: construction with the standard offset basis is indeed not
available for FNV-0: its zero-argument constructor initializes the value to
zero, which differs from the offset basis of every width, while FNV-1 and
FNV-1a each get a zero-argument default constructor with the standard
basis. -/
theorem fnv0_default_is_zero_not_basis (w : Width) :
    Fnv0.new.finish = 0 ∧ Fnv0.new.finish ≠ w.offset ∧
    (Fnv1.new w).finish = w.offset ∧ (Fnv1a.new w).finish = w.offset ∧
    hasZeroArgCtor Variant.fnv0 = true := by
  refine ⟨rfl, ?_, rfl, rfl, rfl⟩
  cases w <;> decide
